import Mathlib

/-!
Verification development for the landtracker backend's parsing and geometry
core (`app/services/parsing.py`, `app/api/v1/geometry.py`,
`app/services/geodesy.py`).

The Python code is embedded shallowly:
* text is `List Char` (wrapped in `String` at the API boundary);
* Python floats are modelled as `ℚ` (all arithmetic involved is exact);
* functions that `raise ValueError(...)` return `Except ParseError _`,
  with one `ParseError` constructor per distinct raise message;
* the regular expressions of the source are compiled by hand into
  deterministic character-level matchers.  Each matcher follows the pattern
  text piece by piece; wherever Python's backtracking engine has a choice
  point, the accompanying comment records why the greedy/first-alternative
  choice is the one the engine commits to (verified against CPython `re`).
* the `random`-based generators `_title_num_gen` / `_owner_gen` are
  modelled as explicit parameters (`genTitle`, `genOwner`).
-/

set_option maxRecDepth 4000

namespace LandTracker

/-! ### Character classes (Python `re`, inputs are ASCII) -/

/-- Python `\s` (ASCII range): space, tab, newline, carriage return,
vertical tab, form feed. -/
def isPySpace (c : Char) : Bool :=
  c = ' ' || c = '\t' || c = '\n' || c = '\r' || c = '\x0b' || c = '\x0c'

/-- Python `\d` (ASCII range). -/
def isDigitCh (c : Char) : Bool := '0' ≤ c && c ≤ '9'

def isLowerCh (c : Char) : Bool := 'a' ≤ c && c ≤ 'z'

def isUpperCh (c : Char) : Bool := 'A' ≤ c && c ≤ 'Z'

def isAlphaCh (c : Char) : Bool := isLowerCh c || isUpperCh c

/-- Python `\w` (ASCII range). -/
def isWordCh (c : Char) : Bool := isAlphaCh c || isDigitCh c || c = '_'

/-- The apostrophe and double-quote characters (written via code points to
keep the source file free of tricky literals). -/
def apos : Char := Char.ofNat 39

def dquote : Char := Char.ofNat 34

/-- Case-insensitive character comparison (`re.IGNORECASE`, ASCII). -/
def ciEq (a b : Char) : Bool := a.toLower = b.toLower

/-! ### Generic matching helpers -/

/-- Pattern `\s*`: greedily drop leading whitespace. -/
def dropWs (cs : List Char) : List Char := cs.dropWhile isPySpace

/-- Pattern `\s+`: at least one whitespace character, greedily consumed. -/
def wsPlus (cs : List Char) : Option (List Char) :=
  match cs with
  | c :: rest => if isPySpace c then some (dropWs rest) else none
  | [] => none

/-- Case-insensitive literal match; returns the rest on success. -/
def litCI : List Char → List Char → Option (List Char)
  | [], cs => some cs
  | _ :: _, [] => none
  | p :: ps, c :: cs => if ciEq p c then litCI ps cs else none

/-- Pattern `X?` for a single exact character: greedily consume it if present.
(Whenever this is used, the skip alternative provably fails, so the greedy
choice is the committed one.) -/
def optCharExact (x : Char) (cs : List Char) : List Char :=
  match cs with
  | c :: rest => if c = x then rest else cs
  | [] => cs

/-- Pattern `[xy]?` (case-sensitive set): greedily consume one if present. -/
def optCharIn (set : List Char) (cs : List Char) : List Char :=
  match cs with
  | c :: rest => if set.contains c then rest else cs
  | [] => cs

/-- Pattern `X?` for a single character, case-insensitively. -/
def optCharCI (x : Char) (cs : List Char) : List Char :=
  match cs with
  | c :: rest => if ciEq c x then rest else cs
  | [] => cs

/-- Greedy maximal digit run. -/
def takeDigits (cs : List Char) : List Char × List Char :=
  (cs.takeWhile isDigitCh, cs.dropWhile isDigitCh)

/-- Numeric value of a digit run. -/
def natOfDigits (ds : List Char) : ℕ :=
  ds.foldl (fun n c => 10 * n + (c.toNat - 48)) 0

/-- Python `str.strip()` (both ends, whitespace). -/
def pyStrip (cs : List Char) : List Char :=
  ((cs.dropWhile isPySpace).reverse.dropWhile isPySpace).reverse

/-- Python `str.rstrip(set)`. -/
def rstripSet (set : List Char) (cs : List Char) : List Char :=
  (cs.reverse.dropWhile (fun c => set.contains c)).reverse

/-- Python `str.strip(set)`. -/
def stripSet (set : List Char) (cs : List Char) : List Char :=
  rstripSet set (cs.dropWhile (fun c => set.contains c))

/-! ### The bearing regex `_BEARING_RX` (parsing.py lines 7-15)

```
(?P<ns>[NS])\.?\s*
(?P<deg>\d{1,3})\s*(?:°|deg(?:ree)?s?\.?|-)\s*
(?:[EW]\s*)?
(?P<min>\d{1,2})\s*(?:\'|′|min(?:ute)?s?\.?)?\s*
(?: (?P<sec>\d{1,2}(?:\.\d+)?)\s*(?:\"|″|sec(?:ond)?s?\.?)?\s* )?
(?P<ew>[EW])?\.?
```
with `re.IGNORECASE`.  The groupdict is turned by `parse_segment` into
`{ns, degrees, minutes, seconds, ew}` with `ns`/`ew` upper-cased. -/

/-- The bearing record produced by `parse_segment` (the Python dict
`{"ns": .., "degrees": .., "minutes": .., "seconds": .., "ew": ..}`). -/
structure TokBearing where
  ns : Char
  degrees : ℕ
  minutes : ℕ
  seconds : Option ℚ
  ew : Option Char
deriving DecidableEq, Repr

/-- Pattern `(?:°|deg(?:ree)?s?\.?|-)` — the mandatory degree marker.  The three
alternatives start with distinct characters, and inside the word branch
each optional piece (`ree`, `s`, `.`) is followed by pattern elements that
cannot match its first character, so the greedy reading is exact. -/
def matchDegMarker (cs : List Char) : Option (List Char) :=
  match cs with
  | '°' :: rest => some rest
  | '-' :: rest => some rest
  | _ =>
    match litCI ['d', 'e', 'g'] cs with
    | some r =>
      let r := (litCI ['r', 'e', 'e'] r).getD r
      let r := optCharCI 's' r
      some (optCharExact '.' r)
    | none => none

/-- Pattern `(?:\'|′|min(?:ute)?s?\.?)?` — the optional minutes marker. -/
def matchMinMarker (cs : List Char) : List Char :=
  match cs with
  | c :: rest =>
    if c = apos || c = '′' then rest
    else
      match litCI ['m', 'i', 'n'] cs with
      | some r =>
        let r := (litCI ['u', 't', 'e'] r).getD r
        let r := optCharCI 's' r
        optCharExact '.' r
      | none => cs
  | [] => cs

/-- Pattern `(?: (?P<sec>\d{1,2}(?:\.\d+)?)\s*(?:\"|″|sec(?:ond)?s?\.?)?\s* )?` —
the optional seconds group.  Its first element is a literal space, but the
greedy `\s*` that precedes the group in the pattern has already consumed
all whitespace and the rest of the pattern can always succeed, so the
engine never backtracks into that `\s*`: this group in fact never matches.
It is modelled faithfully regardless. -/
def matchSecGroup (cs : List Char) : Option (ℚ × List Char) :=
  match cs with
  | ' ' :: r =>
    let ds := (r.takeWhile isDigitCh).take 2
    if ds.isEmpty then none
    else
      let r1 := r.drop ds.length
      let (fr, r2) :=
        match r1 with
        | '.' :: t =>
          let f := t.takeWhile isDigitCh
          if f.isEmpty then ([], r1) else (f, t.drop f.length)
        | _ => ([], r1)
      let q : ℚ := (natOfDigits ds : ℚ) + (natOfDigits fr : ℚ) / 10 ^ fr.length
      let r3 := dropWs r2
      let r4 :=
        match r3 with
        | c :: t =>
          if c = dquote || c = '″' then t
          else
            match litCI ['s', 'e', 'c'] r3 with
            | some s =>
              let s := (litCI ['o', 'n', 'd'] s).getD s
              let s := optCharCI 's' s
              optCharExact '.' s
            | none => r3
        | [] => r3
      some (q, dropWs r4)
  | _ => none

/-- Attempt the whole bearing pattern anchored at the head of `cs`.
Returns the groups and the remainder after the match end.

Determinism notes (each checked against CPython `re`):
* `\d{1,3}` before the degree marker: a digit run of length 4 or more can
  never be split so that the next pattern element matches (the marker and
  `\s` cannot match a digit), so such a run fails outright; a run of
  length 1-3 must be consumed whole for the same reason.
* `(?:[EW]\s*)?`: if the next character is E/W, skipping the group would
  force `\d{1,2}` to match that letter, which fails, so the group is taken.
* `(?P<min>\d{1,2})`: everything after it is optional, so the match
  succeeds as soon as one or two digits are consumed; the greedy take of
  `min(2, run length)` digits is final. -/
def matchBearingAt (cs : List Char) : Option (TokBearing × List Char) :=
  match cs with
  | c :: rest =>
    if c.toLower = 'n' || c.toLower = 's' then
      let r1 := dropWs (optCharExact '.' rest)
      let (dg, r2) := takeDigits r1
      if dg.isEmpty || 3 < dg.length then none
      else
        match matchDegMarker (dropWs r2) with
        | none => none
        | some r3 =>
          let r4 := dropWs r3
          let r5 :=
            match r4 with
            | e :: t => if e.toLower = 'e' || e.toLower = 'w' then dropWs t else r4
            | [] => r4
          let mrun := r5.takeWhile isDigitCh
          if mrun.isEmpty then none
          else
            let mn := mrun.take 2
            let r6 := r5.drop mn.length
            let r7 := dropWs (matchMinMarker (dropWs r6))
            let (sec, r8) :=
              match matchSecGroup r7 with
              | some (q, t) => (some q, t)
              | none => ((none : Option ℚ), r7)
            let (ew, r9) :=
              match r8 with
              | e :: t =>
                if e.toLower = 'e' || e.toLower = 'w' then (some e.toUpper, t)
                else ((none : Option Char), r8)
              | [] => ((none : Option Char), r8)
            let r10 := optCharExact '.' r9
            some (⟨c.toUpper, natOfDigits dg, natOfDigits mn, sec, ew⟩, r10)
    else none
  | [] => none

/-- Model of `_BEARING_RX.search`: leftmost match (first start position at which the
anchored matcher succeeds). -/
def searchBearing : List Char → Option (TokBearing × List Char)
  | [] => none
  | c :: cs =>
    match matchBearingAt (c :: cs) with
    | some r => some r
    | none => searchBearing cs

/-! ### The distance regex `(?P<dist>[\d\.]+)\s*m` (parse_segment, line 33) -/

def isDistCh (c : Char) : Bool := isDigitCh c || c = '.'

/-- Anchored attempt: the greedy maximal digit-or-dot run, then `\s*`, then
`m`/`M`.  Backtracking the `+` to a shorter run never helps: the character
following the shortened prefix is a digit or dot, which matches neither
`\s` nor `m`. -/
def matchDistAt (cs : List Char) : Option (List Char × List Char) :=
  match cs with
  | c :: _ =>
    if isDistCh c then
      let run := cs.takeWhile isDistCh
      match dropWs (cs.drop run.length) with
      | m :: t => if m.toLower = 'm' then some (run, t) else none
      | [] => none
    else none
  | [] => none

/-- Model of `re.search` of the distance pattern: leftmost match; returns the
captured `dist` run and the remainder. -/
def searchDist : List Char → Option (List Char × List Char)
  | [] => none
  | c :: cs =>
    match matchDistAt (c :: cs) with
    | some r => some r
    | none => searchDist cs

/-- Python `float()` applied to a `[\d.]+` capture: defined exactly on runs
of digits and dots that contain at least one digit and at most one dot
(`float("...")` and `float("1.2.3")` raise `ValueError`). -/
def pyFloatOfRun (cs : List Char) : Option ℚ :=
  if cs.all isDistCh && cs.any isDigitCh && cs.count '.' ≤ 1 then
    let ip := cs.takeWhile isDigitCh
    match cs.drop ip.length with
    | [] => some (natOfDigits ip : ℚ)
    | '.' :: fr => some ((natOfDigits ip : ℚ) + (natOfDigits fr : ℚ) / 10 ^ fr.length)
    | _ => none
  else none

/-! ### parse_segment (parsing.py lines 18-38) -/

/-- One constructor per distinct `raise ValueError(...)` site of the
embedded code. -/
inductive ParseError where
  /-- Message `"Empty description"` (parse_land_title line 328). -/
  | emptyInput : ParseError
  /-- Message `"Could not find the start of the technical description."`
  (_slice_between_anchors_spanning_pages line 246). -/
  | noStartAnchor : ParseError
  /-- Message `"Could not find the apostrophe-quoted Beginning at ...' anchor inside the technical
  description."` (parse_land_title line 341). -/
  | noAnchorInTD : ParseError
  /-- Message `"No boundary segments found"` (parse_land_title line 348). -/
  | noBoundarySegments : ParseError
  /-- Message `"Could not find tie-point in: ..."` (parse_land_title line 355). -/
  | missingTiePoint : ParseError
  /-- Message `"Could not parse distance in segment: ..."` (parse_segment line 35). -/
  | distanceNotFound : ParseError
  /-- the `ValueError` raised by `float()` itself when the captured
  distance token is not a valid float literal (parse_segment line 36). -/
  | floatConv : ParseError
deriving DecidableEq, Repr

/-- Model of `seg.strip().rstrip(',:;.')` (parse_segment line 19). -/
def cleanSegL (cs : List Char) : List Char :=
  rstripSet [',', ':', ';', '.'] (pyStrip cs)

/-- parse_segment on character lists. -/
def parseSegmentL (seg : List Char) : Except ParseError (Option TokBearing × Option ℚ) :=
  match searchBearing (cleanSegL seg) with
  | none => .ok (none, none)
  | some (b, post) =>
    match searchDist post with
    | none => .error .distanceNotFound
    | some (run, _) =>
      match pyFloatOfRun run with
      | none => .error .floatConv
      | some d => .ok (some b, some d)

/-- Model of `parse_segment` at the `String` boundary. -/
def parse_segment (seg : String) : Except ParseError (Option TokBearing × Option ℚ) :=
  parseSegmentL seg.data

/-! ### Word sequences and boundaries (`\b`) -/

/-- Pattern `\b` immediately after a word character: the next character must not be
a word character (or the string must end). -/
def wordBoundaryAfter (cs : List Char) : Bool :=
  match cs with
  | [] => true
  | c :: _ => !(isWordCh c)

/-- Literal words joined by `\s+` (greedy; exact since `\s` and the word
characters are disjoint). -/
def seqWords : List (List Char) → List Char → Option (List Char)
  | [], cs => some cs
  | [w], cs => litCI w cs
  | w :: ws, cs =>
    match litCI w cs with
    | some r =>
      match wsPlus r with
      | some r2 => seqWords ws r2
      | none => none
    | none => none

/-- Model of `s?\b` directly after a word (used for `annotation[s]?\b`,
`meters?\b`, ...): the boundary may hold before the optional `s` only if
the `s` is absent. -/
def optSBoundary (cs : List Char) : Bool :=
  wordBoundaryAfter cs ||
    (match cs with
     | c :: t => ciEq c 's' && wordBoundaryAfter t
     | [] => false)

/-! ### splitlines, headers/footers, continuations (parsing.py 139-153, 197-226) -/

/-- Split on every `\n`, `\r`, `\r\n`, keeping a (possibly empty) final
piece. -/
def splitLinesAll (acc : List Char) : List Char → List (List Char)
  | [] => [acc.reverse]
  | '\r' :: '\n' :: rest => acc.reverse :: splitLinesAll [] rest
  | '\n' :: rest => acc.reverse :: splitLinesAll [] rest
  | '\r' :: rest => acc.reverse :: splitLinesAll [] rest
  | c :: rest => splitLinesAll (c :: acc) rest

/-- Python `str.splitlines()` on `\n`, `\r`, `\r\n`: like `splitLinesAll`
but the empty piece after a terminal line break is not emitted, and the
empty string yields no lines. -/
def splitLinesPy (cs : List Char) : List (List Char) :=
  if cs.isEmpty then []
  else
    let l := splitLinesAll [] cs
    if l.getLast? = some [] then l.dropLast else l

/-- Pattern `^\s*page\s*\d+\s*(of\s*\d+)?\s*$` anchored on a whole line. -/
def hfPage (cs : List Char) : Bool :=
  match litCI "page".data (dropWs cs) with
  | some r =>
    let (ds, r1) := takeDigits (dropWs r)
    if ds.isEmpty then false
    else
      let r2 := dropWs r1
      (match litCI "of".data r2 with
       | some r3 =>
         let (d2, r4) := takeDigits (dropWs r3)
         !d2.isEmpty && (dropWs r4).isEmpty
       | none => false)
      || r2.isEmpty
  | none => false

/-- Pattern `^\s*—?\s*\d+\s*—?\s*$`. -/
def hfDashNum (cs : List Char) : Bool :=
  let r := optCharExact '—' (dropWs cs)
  let (ds, r1) := takeDigits (dropWs r)
  !ds.isEmpty && (dropWs (optCharExact '—' (dropWs r1))).isEmpty

/-- Pattern `^\s*tct\s*no\.\s*\S+\s*$` and the `oct` twin.  Backtracking `\S+` to a
shorter run leaves a non-space next character, which fails `\s*$`, so the
maximal run is exact. -/
def hfTitleNo (kw : List Char) (cs : List Char) : Bool :=
  match litCI kw (dropWs cs) with
  | some r =>
    match litCI "no".data (dropWs r) with
    | some ('.' :: r2) =>
      let r3 := dropWs r2
      let run := r3.takeWhile (fun c => !isPySpace c)
      !run.isEmpty && (dropWs (r3.drop run.length)).isEmpty
    | _ => false
  | none => false

/-- Pattern `^\s*original\s+certificate\s+of\s+title\s*$` and the `transfer` twin. -/
def hfCert (first : List Char) (cs : List Char) : Bool :=
  match seqWords [first, "certificate".data, "of".data, "title".data] (dropWs cs) with
  | some r => (dropWs r).isEmpty
  | none => false

/-- Pattern `^\s*registry\s+of\s+deeds.*$` (`.*$` always succeeds on a line with
no newline). -/
def hfRegistry (cs : List Char) : Bool :=
  (seqWords ["registry".data, "of".data, "deeds".data] (dropWs cs)).isSome

/-- Model of `HEADER_FOOTER_RE.match(line)` — the alternation of the seven
`PAGE_HEADER_FOOTER_PATTERNS`, anchored at the line start. -/
def hfMatch (cs : List Char) : Bool :=
  hfPage cs || hfDashNum cs || hfTitleNo "tct".data cs || hfTitleNo "oct".data cs ||
    hfCert "original".data cs || hfCert "transfer".data cs || hfRegistry cs

/-- Pattern `\(?\s*continued\s+(on|in)\s+page\s*\d+\s*\)?` anchored at a position;
returns the remainder after the match. -/
def contPageAt (word : List Char) (cs : List Char) : Option (List Char) :=
  match seqWords ["continued".data, word, "page".data] (dropWs (optCharExact '(' cs)) with
  | some r =>
    let (ds, r1) := takeDigits (dropWs r)
    if ds.isEmpty then none else some (optCharExact ')' (dropWs r1))
  | none => none

/-- Pattern `\(?\s*continuation\s*\)?` anchored at a position. -/
def contBareAt (cs : List Char) : Option (List Char) :=
  match litCI "continuation".data (dropWs (optCharExact '(' cs)) with
  | some r => some (optCharExact ')' (dropWs r))
  | none => none

/-- One `CONTINUATION_RE` alternative anchored at a position (alternation
in source order). -/
def matchContAt (cs : List Char) : Option (List Char) :=
  contPageAt "on".data cs <|> contPageAt "in".data cs <|> contBareAt cs

/-- Model of `CONTINUATION_RE.sub("", line)`: remove every non-overlapping leftmost
match.  Every match consumes at least one character, so a fuel of
`cs.length` is never exhausted. -/
def subContAux : ℕ → List Char → List Char
  | _, [] => []
  | 0, cs => cs
  | n + 1, c :: cs =>
    match matchContAt (c :: cs) with
    | some rest => subContAux n rest
    | none => c :: subContAux n cs

def subCont (cs : List Char) : List Char := subContAux cs.length cs

/-- Model of `str.rstrip()` (whitespace). -/
def rstripWs (cs : List Char) : List Char :=
  (cs.reverse.dropWhile isPySpace).reverse

/-- Model of `_dehyphenate` (parsing.py 197-199): `re.sub(r"(\w)-\s*$", r"\1", line)`
— drop a line-final hyphen preceded by a word character, together with any
trailing whitespace. -/
def dehyph (line : List Char) : List Char :=
  let r := rstripWs line
  match r.reverse with
  | '-' :: w :: _ => if isWordCh w then r.dropLast else line
  | _ => line

def updateLast (f : List Char → List Char) : List (List Char) → List (List Char)
  | [] => []
  | [x] => [f x]
  | x :: y :: rest => x :: updateLast f (y :: rest)

/-- The hyphen-joining loop of `_strip_headers_footers_and_continuations`
(parsing.py 220-225): the test looks at the previous *original* line,
the merge rewrites the last *joined* line. -/
def hyphenJoinAux (prev : List Char) (acc : List (List Char)) :
    List (List Char) → List (List Char)
  | [] => acc
  | line :: rest =>
    if (rstripWs prev).getLast? = some '-' then
      hyphenJoinAux line (updateLast (fun j => dehyph j ++ line.dropWhile isPySpace) acc) rest
    else
      hyphenJoinAux line (acc ++ [line]) rest

def hyphenJoin : List (List Char) → List (List Char)
  | [] => []
  | l :: rest => hyphenJoinAux l [l] rest

/-- Model of `_strip_headers_footers_and_continuations` (parsing.py 202-226). -/
def stripHFC (text : List Char) : List Char :=
  let cleaned := (splitLinesPy text).filterMap (fun raw =>
    let line := pyStrip raw
    if line.isEmpty then some raw
    else if hfMatch line then none
    else some (subCont line))
  List.intercalate ['\n'] (hyphenJoin cleaned)

/-! ### Anchors and stop markers (parsing.py 119-137, 156-165, 190-191) -/

/-- Model of `beg\.\s*at\s+a\s+point` (the one start variation with `\s*`). -/
def begDotAt (cs : List Char) : Option (List Char) :=
  match litCI "beg".data cs with
  | some ('.' :: r) => seqWords ["at".data, "a".data, "point".data] (dropWs r)
  | _ => none

/-- One `DEFAULT_START_VARIATIONS` alternative anchored at a position,
alternation in source order. -/
def matchStartAnchorAt (cs : List Char) : Option (List Char) :=
  seqWords ["beginning".data, "at".data, "a".data, "point".data] cs <|>
  seqWords ["beginning".data, "at".data, "point".data] cs <|>
  seqWords ["beginning".data, "at".data] cs <|>
  seqWords ["begin".data, "at".data, "a".data, "point".data] cs <|>
  begDotAt cs <|>
  seqWords ["starting".data, "at".data, "a".data, "point".data] cs <|>
  seqWords ["commencing".data, "at".data, "a".data, "point".data] cs

/-- Leftmost search for a start anchor; returns the suffix at the match
start and the suffix after the match end. -/
def searchStartAnchor : List Char → Option (List Char × List Char)
  | [] => none
  | c :: cs =>
    match matchStartAnchorAt (c :: cs) with
    | some rest => some (c :: cs, rest)
    | none => searchStartAnchor cs

/-- One `DEFAULT_END_VARIATIONS` alternative anchored at a position,
alternation in source order (the `[\.,]?`-suffixed variants are shadowed
by their plain twins but are kept for fidelity). -/
def matchEndAnchorAt (cs : List Char) : Option (List Char) :=
  seqWords ["to".data, "point".data, "of".data, "beginning".data] cs <|>
  seqWords ["to".data, "the".data, "point".data, "of".data, "beginning".data] cs <|>
  seqWords ["returning".data, "to".data, "the".data, "point".data, "of".data, "beginning".data] cs <|>
  seqWords ["back".data, "to".data, "point".data, "of".data, "beginning".data] cs <|>
  seqWords ["back".data, "to".data, "the".data, "point".data, "of".data, "beginning".data] cs <|>
  ((seqWords ["to".data, "point".data, "of".data, "beginning".data] cs).map (optCharIn ['.', ','])) <|>
  ((seqWords ["to".data, "the".data, "point".data, "of".data, "beginning".data] cs).map (optCharIn ['.', ',']))

/-- Leftmost search for an end anchor; returns the suffix at the match
start and the suffix after the match end. -/
def searchEndAnchor : List Char → Option (List Char × List Char)
  | [] => none
  | c :: cs =>
    match matchEndAnchorAt (c :: cs) with
    | some rest => some (c :: cs, rest)
    | none => searchEndAnchor cs

/-- Model of `finditer` keeping the last end-anchor match (the `use_last_end=True`
branch): repeated non-overlapping search, each continuing after the
previous match end.  Matches are non-empty, so `cs.length` fuel suffices. -/
def lastEndAnchor : ℕ → List Char → Option (List Char × List Char)
  | 0, _ => none
  | n + 1, cs =>
    match searchEndAnchor cs with
    | none => none
    | some (f, a) =>
      match lastEndAnchor n a with
      | some r => some r
      | none => some (f, a)

/-- One `STOP_MARKERS` alternative anchored at a position (`prevW` is the
wordness of the preceding character, for the leading `\b`). -/
def stopMarkerAt (prevW : Bool) (cs : List Char) : Bool :=
  !prevW &&
    ((match seqWords ["memoranda".data, "of".data, "encumbrances".data] cs with
      | some r => wordBoundaryAfter r
      | none => false) ||
     (match litCI "encumbrances".data cs with
      | some r => wordBoundaryAfter r
      | none => false) ||
     (match litCI "annotation".data cs with
      | some r => optSBoundary r
      | none => false) ||
     (match litCI "note".data cs with
      | some (c :: _) => c = ':' || c = ' '
      | _ => false) ||
     (match litCI "area".data cs with
      | some r =>
        (match dropWs r with
         | c :: _ => c = ':' || c = '='
         | [] => false)
      | none => false) ||
     (match seqWords ["technical".data, "description".data] cs with
      | some r => wordBoundaryAfter r
      | none => false) ||
     (match litCI "owner".data cs with
      | some r => wordBoundaryAfter r
      | none => false) ||
     (match litCI "issued".data cs with
      | some r => wordBoundaryAfter r
      | none => false))

/-- Leftmost `STOP_MARKERS_RE.search`, tracking the preceding character's
wordness; returns the suffix at the match start. -/
def searchStopFrom (prevW : Bool) : List Char → Option (List Char)
  | [] => none
  | c :: cs =>
    if stopMarkerAt prevW (c :: cs) then some (c :: cs)
    else searchStopFrom (isWordCh c) cs

/-! ### KEEP_TOKENS (parsing.py 168-184) -/

/-- Pattern `\bword\b` at a position. -/
def kwWordB (w : List Char) (prevW : Bool) (cs : List Char) : Bool :=
  !prevW &&
    (match litCI w cs with
     | some r => wordBoundaryAfter r
     | none => false)

/-- Pattern `\bword` + `s?\b` at a position (`meters?`, `degrees?`, ...). -/
def kwWordSB (w : List Char) (prevW : Bool) (cs : List Char) : Bool :=
  !prevW &&
    (match litCI w cs with
     | some r => optSBoundary r
     | none => false)

/-- Model of `P\.?O\.?B\.?` (no boundaries; the final `\.?` needs nothing after). -/
def kwPOB (cs : List Char) : Bool :=
  match cs with
  | p :: r =>
    ciEq p 'p' &&
      (match optCharExact '.' r with
       | o :: r2 =>
         ciEq o 'o' &&
           (match optCharExact '.' r2 with
            | b :: _ => ciEq b 'b'
            | [] => false)
       | [] => false)
  | [] => false

/-- Pattern `\bm\.\b`: the trailing `\b` sits between the dot (non-word) and the
next character, so it requires a following word character. -/
def kwMDot (prevW : Bool) (cs : List Char) : Bool :=
  !prevW &&
    (match cs with
     | m :: '.' :: t =>
       ciEq m 'm' &&
         (match t with
          | c :: _ => isWordCh c
          | [] => false)
     | _ => false)

/-- Pattern `\bN(?:E|W)?\b` / `\bS(?:E|W)?\b`. -/
def kwNSdir (letter : Char) (prevW : Bool) (cs : List Char) : Bool :=
  !prevW &&
    (match cs with
     | c :: r =>
       ciEq c letter &&
         ((match r with
           | e :: t => (ciEq e 'e' || ciEq e 'w') && wordBoundaryAfter t
           | [] => false) ||
          wordBoundaryAfter r)
     | [] => false)

/-- One `KEEP_TOKENS` alternative anchored at a position.  As written in
the source, `\bnorth|south|east|west\b` bounds only `north` on the left
and `west` on the right; `south` and `east` are bare substrings. -/
def keepTokenAt (prevW : Bool) (cs : List Char) : Bool :=
  kwWordB "thence".data prevW cs ||
  kwWordB "from".data prevW cs ||
  kwWordB "point".data prevW cs || kwWordB "corner".data prevW cs || kwPOB cs ||
  kwWordSB "meter".data prevW cs || kwMDot prevW cs ||
  kwWordSB "degree".data prevW cs || cs.head? = some '°' || cs.head? = some 'º' ||
  kwWordSB "minute".data prevW cs || cs.head? = some '′' || cs.head? = some '’' ||
  kwWordSB "second".data prevW cs || cs.head? = some '″' ||
  kwWordB "true".data prevW cs || kwWordB "magnetic".data prevW cs ||
  kwWordB "bearing".data prevW cs || kwWordB "course".data prevW cs ||
  kwWordB "distance".data prevW cs ||
  (!prevW && (litCI "north".data cs).isSome) ||
  (litCI "south".data cs).isSome || (litCI "east".data cs).isSome ||
  (match litCI "west".data cs with
   | some r => wordBoundaryAfter r
   | none => false) ||
  kwNSdir 'n' prevW cs || kwNSdir 's' prevW cs ||
  kwWordB "e".data prevW cs || kwWordB "w".data prevW cs

/-- Model of `KEEP_TOKENS_RE.search(line)` (existence). -/
def keepSearchFrom (prevW : Bool) : List Char → Bool
  | [] => false
  | c :: cs => keepTokenAt prevW (c :: cs) || keepSearchFrom (isWordCh c) cs

/-! ### Slicing and filtering (parsing.py 229-312) -/

/-- Model of `_slice_between_anchors_spanning_pages` (parsing.py 229-271).  The
source's final re-check `m_end.start() < m_start.end()` is dead: the end
search begins at `m_start.end()`, so every end match starts at or after
it; the branch is therefore not modelled. -/
def sliceBetweenAnchors (text : List Char) (include_markers use_last_end : Bool) :
    Except ParseError (List Char) :=
  match searchStartAnchor text with
  | none => .error .noStartAnchor
  | some (fromStart, afterStart) =>
    match
      if use_last_end then lastEndAnchor afterStart.length afterStart
      else searchEndAnchor afterStart with
    | some (eFrom, eAfter) =>
      .ok (pyStrip ((if include_markers then fromStart else afterStart).take
        ((if include_markers then fromStart else afterStart).length -
          (if include_markers then eAfter else eFrom).length)))
    | none =>
      match searchStopFrom
          (match (fromStart.take (fromStart.length - afterStart.length)).getLast? with
           | some c => isWordCh c
           | none => false) afterStart with
      | some sFrom =>
        .ok (pyStrip ((if include_markers then fromStart else afterStart).take
          ((if include_markers then fromStart else afterStart).length - sFrom.length)))
      | none => .ok (pyStrip (if include_markers then fromStart else afterStart))

/-- Python `str.isupper()`: at least one cased character and no lowercase
one (ASCII). -/
def pyIsUpper (cs : List Char) : Bool :=
  cs.any isAlphaCh && cs.all (fun c => !isLowerCh c)

/-- The line loop of `_filter_intruding_non_td_lines` (parsing.py 274-300):
keep blank lines and lines with a KEEP token; hard-stop on a stop marker;
drop short ALL-CAPS headings; keep everything else. -/
def filterLines : List (List Char) → List (List Char)
  | [] => []
  | raw :: rest =>
    let line := pyStrip raw
    if line.isEmpty then raw :: filterLines rest
    else if keepSearchFrom false line then raw :: filterLines rest
    else if (searchStopFrom false line).isSome then []
    else if pyIsUpper line && line.length ≤ 60 then filterLines rest
    else raw :: filterLines rest

/-- Model of `_filter_intruding_non_td_lines` (parsing.py 274-300). -/
def filterIntruding (block : List Char) : List Char :=
  pyStrip (List.intercalate ['\n'] (filterLines (splitLinesPy block)))

/-- Model of `extract_technical_description_spanning_pages` (parsing.py 303-312),
called with `include_markers=True, use_last_end=False`. -/
def extractTD (text : List Char) : Except ParseError (List Char) :=
  match sliceBetweenAnchors (stripHFC text) true false with
  | .error e => .error e
  | .ok span => .ok (filterIntruding span)

/-! ### Segment splitting (parse_land_title, parsing.py 344-356) -/

/-- Pattern `\bthence\b` anchored at a position (the caller checks the leading
boundary via `prevW`). -/
def thenceAt (cs : List Char) : Option (List Char) :=
  match litCI "thence".data cs with
  | some r => if wordBoundaryAfter r then some r else none
  | none => none

/-- Model of `re.split(r'(?:;\s*|\bthence\b)', work)`: scan left to right; at each
position try `;\s*` then `\bthence\b`; a match ends the current piece and
the scan resumes after it.  Matches are non-empty, so `cs.length` fuel is
never exhausted. -/
def splitPartsAux : ℕ → Bool → List Char → List Char → List (List Char)
  | _, _, acc, [] => [acc.reverse]
  | 0, _, acc, cs => [acc.reverse ++ cs]
  | n + 1, prevW, acc, c :: cs =>
    if c = ';' then acc.reverse :: splitPartsAux n false [] (dropWs cs)
    else if !prevW then
      match thenceAt (c :: cs) with
      | some rest => acc.reverse :: splitPartsAux n true [] rest
      | none => splitPartsAux n (isWordCh c) (c :: acc) cs
    else splitPartsAux n (isWordCh c) (c :: acc) cs

def splitParts (cs : List Char) : List (List Char) :=
  splitPartsAux cs.length false [] cs

/-- Pattern `\s+from\s+` anchored at a position (both `\s+` greedy; exact since
whitespace and `f` are disjoint). -/
def fromSepAt (cs : List Char) : Option (List Char) :=
  match wsPlus cs with
  | some r =>
    match litCI "from".data r with
    | some r2 => wsPlus r2
    | none => none
  | none => none

/-- Model of `re.split(r'\s+from\s+', first_seg)`. -/
def splitFromAux : ℕ → List Char → List Char → List (List Char)
  | _, acc, [] => [acc.reverse]
  | 0, acc, cs => [acc.reverse ++ cs]
  | n + 1, acc, c :: cs =>
    match fromSepAt (c :: cs) with
    | some rest => acc.reverse :: splitFromAux n [] rest
    | none => splitFromAux n (c :: acc) cs

def splitFrom (cs : List Char) : List (List Char) :=
  splitFromAux cs.length [] cs

/-! ### _clean_capture (parsing.py 56-60) -/

/-- Model of `re.sub(r'\s{2,}', ' ', s)`: each maximal whitespace run of length at
least two becomes a single space; single whitespace characters stay. -/
def flushWs : List Char → List Char
  | [] => []
  | [w] => [w]
  | _ => [' ']

def collapseWsGo : List Char → List Char → List Char
  | pend, [] => flushWs pend
  | pend, c :: cs =>
    if isPySpace c then collapseWsGo (c :: pend) cs
    else flushWs pend ++ c :: collapseWsGo [] cs

/-- Model of `_clean_capture` (parsing.py 56-60): cut at the first `[\r\n;]`,
collapse whitespace runs, strip `" \t,.;:"` from both ends. -/
def cleanCapture (cs : List Char) : List Char :=
  let s1 := cs.takeWhile (fun c => !(c = '\r' || c = '\n' || c = ';'))
  stripSet [' ', '\t', ',', '.', ';', ':'] (collapseWsGo [] s1)

/-! ### Title-number / owner heuristics (parsing.py 44-68, 105-112)

The `random`-based fallbacks `_title_num_gen` / `_owner_gen` are modelled
as the explicit parameters `genTitle` / `genOwner`. -/

def alnumCh (c : Char) : Bool := isAlphaCh c || isDigitCh c

/-- The capture class `[A-Za-z0-9\-\/\. ]` of the title-number patterns. -/
def titleCaptureCh (c : Char) : Bool :=
  alnumCh c || c = '-' || c = '/' || c = '.' || c = ' '

/-- Pattern `\s*[:\-]?\s*([A-Za-z0-9][A-Za-z0-9\-\/\. ]{2,})` — the shared tail of
the first title pattern.  The capture's `{2,}` run is greedy and final. -/
def titleNumCapture (cs : List Char) : Option (List Char) :=
  let r := dropWs (optCharIn [':', '-'] (dropWs cs))
  match r with
  | c :: t =>
    if alnumCh c then
      let run := t.takeWhile titleCaptureCh
      if 2 ≤ run.length then some (c :: run) else none
    else none
  | [] => none

/-- Pattern `\bNo\.?` followed by the capture tail, at a lazy-scan position of the
first title pattern (`prevW` carries the `\b`). -/
def p1After (prevW : Bool) (cs : List Char) : Option (List Char) :=
  if prevW then none
  else
    match litCI "no".data cs with
    | some r => titleNumCapture (optCharExact '.' r)
    | none => none

/-- Pattern `[\s\S]{0,100}?` — lazy scan: try the continuation at offset 0, 1, ...
up to 100. -/
def p1Lazy (fuel : ℕ) (prevW : Bool) (cs : List Char) : Option (List Char) :=
  match p1After prevW cs with
  | some cap => some cap
  | none =>
    match fuel, cs with
    | 0, _ => none
    | _, [] => none
    | f + 1, c :: t => p1Lazy f (isWordCh c) t

/-- The first `_TITLE_NO_PATTERNS` entry anchored at a position:
`(?is)(?:Transfer|Original)\s+Certificate\s+of\s+Title[\s\S]{0,100}?\bNo\.?\s*[:\-]?\s*(capture)`. -/
def p1At (cs : List Char) : Option (List Char) :=
  match litCI "transfer".data cs <|> litCI "original".data cs with
  | some r =>
    match wsPlus r with
    | some r1 =>
      match seqWords ["certificate".data, "of".data, "title".data] r1 with
      | some r2 => p1Lazy 100 true r2
      | none => none
    | none => none
  | none => none

def searchP1 : List Char → Option (List Char)
  | [] => none
  | c :: cs =>
    match p1At (c :: cs) with
    | some r => some r
    | none => searchP1 cs

/-- Pattern `$` of a `(?m)` pattern after a greedy `\s*`: some whitespace prefix
ends the string or reaches a newline.  (All reachable split positions are
scanned, which is exactly what the engine's backtracking explores.) -/
def dollarAfterWs : List Char → Bool
  | [] => true
  | '\n' :: _ => true
  | c :: t => isPySpace c && dollarAfterWs t

/-- Pattern `\s*[:\-]?\s*([A-Za-z0-9][A-Za-z0-9\-\/\. ]{2,})\s*$` — tail of the
second title pattern.  Backtracking the greedy capture run cannot create a
new `$` position (the dropped characters are never newlines), so the
maximal run is exact. -/
def p2Capture (cs : List Char) : Option (List Char) :=
  let r := dropWs (optCharIn [':', '-'] (dropWs cs))
  match r with
  | c :: t =>
    if alnumCh c then
      let run := t.takeWhile titleCaptureCh
      if 2 ≤ run.length && dollarAfterWs (t.drop run.length) then some (c :: run)
      else none
    else none
  | [] => none

/-- The second `_TITLE_NO_PATTERNS` entry anchored at a `^` position:
`(?im)^\s*TCT\s*(?:No\.?|Number|#)?\s*[:\-]?\s*(capture)\s*$`.  The group
alternatives are tried in order, then the group-absent branch; inside
`No\.?` the dot, when present, must be taken (the capture tail cannot
start at a dot). -/
def p2At (cs : List Char) : Option (List Char) :=
  match litCI "tct".data (dropWs cs) with
  | some r1 =>
    let r2 := dropWs r1
    (match litCI "no".data r2 with
     | some rn => p2Capture (optCharExact '.' rn)
     | none => none) <|>
    (match litCI "number".data r2 with
     | some rn => p2Capture rn
     | none => none) <|>
    (match r2 with
     | '#' :: rn => p2Capture rn
     | _ => none) <|>
    p2Capture r2
  | none => none

/-- Search the second title pattern at every `(?m)` `^` position (start of
string or just after a newline), leftmost first. -/
def searchP2Aux : List Char → Option (List Char)
  | [] => none
  | '\n' :: t =>
    (match p2At t with
     | some r => some r
     | none => searchP2Aux t)
  | _ :: t => searchP2Aux t

def searchP2 (cs : List Char) : Option (List Char) :=
  match p2At cs with
  | some r => some r
  | none => searchP2Aux cs

/-- The capture class `[A-Za-z\.\- ,]` of the owner patterns. -/
def ownerCh (c : Char) : Bool :=
  isAlphaCh c || c = '.' || c = '-' || c = ' ' || c = ','

/-- Pattern `([A-Z][A-Za-z\.\- ,]+)` under `re.IGNORECASE` (so `[A-Z]` matches any
letter). -/
def ownerCapture (cs : List Char) : Option (List Char) :=
  match cs with
  | c :: t =>
    if isAlphaCh c then
      let run := t.takeWhile ownerCh
      if run.isEmpty then none else some (c :: run)
    else none
  | [] => none

/-- Pattern `\s*[:\-]\s*(capture)` — tail of the first owner pattern (the `[:\-]`
is mandatory here). -/
def o1Tail (r : List Char) : Option (List Char) :=
  match dropWs r with
  | c :: t => if c = ':' || c = '-' then ownerCapture (dropWs t) else none
  | [] => none

/-- Pattern `(?:Registered\s+Owner|Owner)\s*[:\-]\s*(capture)` at a position. -/
def o1At (cs : List Char) : Option (List Char) :=
  (match seqWords ["registered".data, "owner".data] cs with
   | some r => o1Tail r
   | none => none) <|>
  (match litCI "owner".data cs with
   | some r => o1Tail r
   | none => none)

/-- Pattern `(?:Registered\s+in\s+favor\s+of|in\s+favor\s+of)\s+(capture)` at a
position. -/
def o2At (cs : List Char) : Option (List Char) :=
  (match seqWords ["registered".data, "in".data, "favor".data, "of".data] cs with
   | some r =>
     (match wsPlus r with
      | some r1 => ownerCapture r1
      | none => none)
   | none => none) <|>
  (match seqWords ["in".data, "favor".data, "of".data] cs with
   | some r =>
     (match wsPlus r with
      | some r1 => ownerCapture r1
      | none => none)
   | none => none)

def searchO1 : List Char → Option (List Char)
  | [] => none
  | c :: cs =>
    match o1At (c :: cs) with
    | some r => some r
    | none => searchO1 cs

def searchO2 : List Char → Option (List Char)
  | [] => none
  | c :: cs =>
    match o2At (c :: cs) with
    | some r => some r
    | none => searchO2 cs

/-- Model of `_find_first(_TITLE_NO_PATTERNS, text)`: first pattern with a match
wins; its group(1) is `_clean_capture`d. -/
def findFirstTitle (text : List Char) : Option (List Char) :=
  match searchP1 text with
  | some cap => some (cleanCapture cap)
  | none =>
    match searchP2 text with
    | some cap => some (cleanCapture cap)
    | none => none

/-- Model of `_find_first(_OWNER_PATTERNS, text)`. -/
def findFirstOwner (text : List Char) : Option (List Char) :=
  match searchO1 text with
  | some cap => some (cleanCapture cap)
  | none =>
    match searchO2 text with
    | some cap => some (cleanCapture cap)
    | none => none

/-- Python `x or gen`: the generated fallback replaces a missing *or empty*
match (string truthiness). -/
def pyOrStr (o : Option (List Char)) (d : List Char) : List Char :=
  match o with
  | some s => if s.isEmpty then d else s
  | none => d

/-- Model of `extract_title_meta` (parsing.py 105-112).  The annotation promises
`Tuple[Optional[str], Optional[str]]`; the values actually returned are
always present (`some _`), because a failed lookup falls back to the
synthetic generator output (here the parameters `genTitle`/`genOwner`). -/
def extractTitleMetaL (genTitle genOwner : List Char) (text : List Char) :
    Option (List Char) × Option (List Char) :=
  (some (pyOrStr (findFirstTitle text) genTitle),
   some (pyOrStr (findFirstOwner text) genOwner))

/-- Model of `extract_title_meta` at the `String` boundary. -/
def extract_title_meta (genTitle genOwner text : String) :
    Option (List Char) × Option (List Char) :=
  extractTitleMetaL genTitle.data genOwner.data text.data

/-! ### parse_land_title (parsing.py 318-368) -/

/-- The corner loop of `parse_land_title` (lines 363-366): each segment is
tokenized; a raised error propagates; a segment is kept only when
`bdict and dist is not None` (so a corner with distance `0.0` *is* kept). -/
def cornerLoop : List (List Char) → Except ParseError (List (TokBearing × ℚ))
  | [] => .ok []
  | seg :: rest =>
    match parseSegmentL seg with
    | .error e => .error e
    | .ok (bd, d) =>
      match cornerLoop rest with
      | .error e => .error e
      | .ok l =>
        match bd, d with
        | some b, some dv => .ok ((b, dv) :: l)
        | _, _ => .ok l

/-- The front of `parse_land_title` up to the raw part split (lines
327-350): empty-input check, technical-description extraction, anchor
re-location, `rstrip(':. ')`, the `;`/`thence` split and the
`p and p.strip()` filter.  Returns the technical description, the first
part and the corner parts.  (The always-succeeding `extract_title_meta`
call of line 331 commutes with these checks and is kept in
`parseLandTitleL`.) -/
def tdStage (text : List Char) :
    Except ParseError (List Char × List Char × List (List Char)) :=
  if (pyStrip text).isEmpty then .error .emptyInput
  else
    match extractTD text with
    | .error e => .error e
    | .ok td =>
      match searchStartAnchor td with
      | none => .error .noAnchorInTD
      | some (fromAnchor, _) =>
        match (splitParts (rstripSet [':', '.', ' '] fromAnchor)).filter
            (fun p => !p.isEmpty && !(pyStrip p).isEmpty) with
        | [] => .error .noBoundarySegments
        | firstSeg :: cornerSegs => .ok (td, firstSeg, cornerSegs)

/-- Model of `parse_land_title` (parsing.py 318-368), with the random generators as
parameters.  Returns the 5-tuple
`(title_number, owner, technical_description, tie_point, boundaries)`.
Note the tie pair is appended only under `if tie_b and tie_d:` — Python
truthiness, so a tie distance of `0.0` drops the pair. -/
def parseLandTitleL (genTitle genOwner text : List Char) :
    Except ParseError
      (Option (List Char) × Option (List Char) × List Char × List Char ×
        List (TokBearing × ℚ)) :=
  match tdStage text with
  | .error e => .error e
  | .ok (td, firstSeg, cornerSegs) =>
    match splitFrom firstSeg with
    | [segTd, tiePoint] =>
      match parseSegmentL segTd with
      | .error e => .error e
      | .ok (tieB, tieD) =>
        match cornerLoop cornerSegs with
        | .error e => .error e
        | .ok l =>
          .ok ((extractTitleMetaL genTitle genOwner text).1,
            (extractTitleMetaL genTitle genOwner text).2, td, cleanCapture tiePoint,
            (match tieB, tieD with
             | some b, some d => if d ≠ 0 then [(b, d)] else []
             | _, _ => []) ++ l)
    | _ => .error .missingTiePoint

/-- Model of `parse_land_title` at the `String` boundary. -/
def parse_land_title (genTitle genOwner text : String) :
    Except ParseError
      (Option (List Char) × Option (List Char) × List Char × List Char ×
        List (TokBearing × ℚ)) :=
  parseLandTitleL genTitle.data genOwner.data text.data

/-! ### The geometry endpoint (app/api/v1/geometry.py, app/schemas/geometry.py)

`next_point` (app/services/geodesy.py) delegates to
`geographiclib.Geodesic.WGS84.Direct`, an external double-precision
ellipsoidal solver; it is modelled as an explicit function parameter
`np : lat → lon → azimuth → distance → (lat2, lon2)` so that the chaining
structure of the `boundaries` endpoint can be verified independently of
the geodesic mathematics. -/

/-- Model of `app.schemas.geometry.Bearing` (pydantic): `ns: str`, `deg: int`,
`min: int`, `sec: float | None`, `ew: str | None`, `distance: float`. -/
structure Bearing where
  ns : String
  deg : ℤ
  min : ℤ
  sec : Option ℚ := none
  ew : Option String := none
  distance : ℚ
deriving DecidableEq, Repr

/-- Model of `app.schemas.geometry.Payload`. -/
structure Payload where
  tie_lat : ℚ
  tie_lon : ℚ
  boundaries : List Bearing
deriving DecidableEq, Repr

/-- Model of `angle = b.deg + b.min / 60.0` (geometry.py line 16). -/
def angleOf (b : Bearing) : ℚ := (b.deg : ℚ) + (b.min : ℚ) / 60

/-- The bearing-to-azimuth conversion of the `boundaries` endpoint
(geometry.py lines 16-24): the if/elif/else ladder on `b.ns`/`b.ew`.
Note the `else` branch catches every combination other than the three
listed ones, in particular every bearing with `ew` absent. -/
def thetaOf (b : Bearing) : ℚ :=
  if b.ns = "N" ∧ b.ew = some "E" then angleOf b
  else if b.ns = "N" ∧ b.ew = some "W" then 360 - angleOf b
  else if b.ns = "S" ∧ b.ew = some "E" then 180 - angleOf b
  else 180 + angleOf b

/-- The loop of the `boundaries` endpoint (geometry.py lines 12-28):
starting from `(curr_lat, curr_lon)`, convert each bearing to an azimuth,
call `next_point`, emit `[lon2, lat2]`, and continue from `(lat2, lon2)`. -/
def boundariesGo (np : ℚ → ℚ → ℚ → ℚ → ℚ × ℚ) :
    ℚ → ℚ → List Bearing → List (ℚ × ℚ)
  | _, _, [] => []
  | lat, lon, b :: rest =>
    let p := np lat lon (thetaOf b) b.distance
    (p.2, p.1) :: boundariesGo np p.1 p.2 rest

/-- The `boundaries` endpoint (geometry.py lines 10-29), parametrised by
the geodesic forward solver.  Each output element is the `[lon2, lat2]`
pair appended to `out`. -/
def boundaries (np : ℚ → ℚ → ℚ → ℚ → ℚ × ℚ) (payload : Payload) : List (ℚ × ℚ) :=
  boundariesGo np payload.tie_lat payload.tie_lon payload.boundaries

end LandTracker

deriving instance DecidableEq for Except

namespace LandTracker

set_option synthInstance.maxHeartbeats 1000000
set_option synthInstance.maxSize 2048
set_option maxHeartbeats 4000000

/-! ### Shared lemmas -/

/-- parse_segment raises only the distance error or the float-conversion
error. -/
theorem parseSegmentL_error_cases (s : List Char) (e : ParseError)
    (h : parseSegmentL s = .error e) : e = .distanceNotFound ∨ e = .floatConv := by
  unfold parseSegmentL at h
  split at h
  · simp at h
  · split at h
    · injection h with h
      exact Or.inl h.symm
    · split at h
      · injection h with h
        exact Or.inr h.symm
      · simp at h

/-- The corner loop raises only what parse_segment raises. -/
theorem cornerLoop_error_cases (segs : List (List Char)) (e : ParseError)
    (h : cornerLoop segs = .error e) : e = .distanceNotFound ∨ e = .floatConv := by
  induction segs with
  | nil => simp [cornerLoop] at h
  | cons seg rest ih =>
    unfold cornerLoop at h
    split at h
    · rename_i e1 h1
      injection h with h
      subst h
      exact parseSegmentL_error_cases seg e1 h1
    · split at h
      · rename_i e2 h2
        injection h with h
        subst h
        exact ih h2
      · split at h <;> simp at h

/-- The anchor slicer raises only the missing-start-anchor error. -/
theorem sliceBetweenAnchors_error_cases (t : List Char) (im ul : Bool) (e : ParseError)
    (h : sliceBetweenAnchors t im ul = .error e) : e = .noStartAnchor := by
  unfold sliceBetweenAnchors at h
  split at h
  · injection h with h
    exact h.symm
  · repeat' split at h
    all_goals simp at h

/-- The technical-description extractor raises only the
missing-start-anchor error. -/
theorem extractTD_error_cases (t : List Char) (e : ParseError)
    (h : extractTD t = .error e) : e = .noStartAnchor := by
  unfold extractTD at h
  split at h
  · rename_i e1 h1
    injection h with h
    subst h
    exact sliceBetweenAnchors_error_cases _ _ _ _ h1
  · simp at h

/-- The front stage of parse_land_title raises exactly the four early
errors, never the tie-point or tokenizer errors. -/
theorem tdStage_error_cases (t : List Char) (e : ParseError)
    (h : tdStage t = .error e) :
    e = .emptyInput ∨ e = .noStartAnchor ∨ e = .noAnchorInTD ∨ e = .noBoundarySegments := by
  unfold tdStage at h
  split at h
  · injection h with h
    exact Or.inl h.symm
  · split at h
    · rename_i e1 h1
      injection h with h
      subst h
      exact Or.inr (Or.inl (extractTD_error_cases _ _ h1))
    · split at h
      · injection h with h
        exact Or.inr (Or.inr (Or.inl h.symm))
      · split at h
        · injection h with h
          exact Or.inr (Or.inr (Or.inr h.symm))
        · simp at h

/-- A corner segment in which no bearing matches contributes nothing: the
loop's result on `s :: segs` is its result on `segs`, whatever `segs`
holds. -/
theorem cornerLoop_drop_cons (s : List Char) (segs : List (List Char))
    (h : searchBearing (cleanSegL s) = none) :
    cornerLoop (s :: segs) = cornerLoop segs := by
  have hseg : parseSegmentL s = .ok (none, none) := by
    unfold parseSegmentL
    rw [h]
  simp only [cornerLoop, hseg]
  rcases h2 : cornerLoop segs with e | l <;> simp

/-- Output length of the traversal loop. -/
theorem boundariesGo_length (np : ℚ → ℚ → ℚ → ℚ → ℚ × ℚ) (bs : List Bearing) :
    ∀ lat lon : ℚ, (boundariesGo np lat lon bs).length = bs.length := by
  induction bs with
  | nil => intro lat lon; rfl
  | cons b rest ih => intro lat lon; simp [boundariesGo, ih]

/-- Chaining property of the traversal loop: the vertex at `i + 1` is the
solver output started from the vertex at `i` (stored as `(lon, lat)`). -/
theorem boundariesGo_succ (np : ℚ → ℚ → ℚ → ℚ → ℚ × ℚ) (bs : List Bearing) :
    ∀ (lat lon : ℚ) (i : ℕ) (b : Bearing) (v : ℚ × ℚ),
      bs[i + 1]? = some b → (boundariesGo np lat lon bs)[i]? = some v →
      (boundariesGo np lat lon bs)[i + 1]? =
        some ((np v.2 v.1 (thetaOf b) b.distance).2, (np v.2 v.1 (thetaOf b) b.distance).1) := by
  induction bs with
  | nil => intro lat lon i b v h1 h2; simp at h1
  | cons b0 rest ih =>
    intro lat lon i b v h1 h2
    cases i with
    | zero =>
      simp [boundariesGo] at h1 h2 ⊢
      rcases rest with _ | ⟨b1, rest'⟩
      · simp at h1
      · simp at h1
        subst h1
        simp [boundariesGo, ← h2]
    | succ i' =>
      simp [boundariesGo] at h1 h2 ⊢
      exact ih _ _ i' b v h1 h2

/-! ### Claim theorems -/

/-- C1: for every bearing input, the bearing-to-azimuth converter computes
`angle = degrees + minutes/60` (parsed seconds are not folded in) and
returns `angle` for N/E, `360 - angle` for N/W, `180 - angle` for S/E, and
`180 + angle` for S/W or whenever `ew` is absent. -/
theorem converter_quadrant_cases (b : Bearing) :
    angleOf b = (b.deg : ℚ) + (b.min : ℚ) / 60 ∧
    (b.ns = "N" → b.ew = some "E" → thetaOf b = angleOf b) ∧
    (b.ns = "N" → b.ew = some "W" → thetaOf b = 360 - angleOf b) ∧
    (b.ns = "S" → b.ew = some "E" → thetaOf b = 180 - angleOf b) ∧
    (b.ns = "S" → b.ew = some "W" → thetaOf b = 180 + angleOf b) ∧
    (b.ew = none → thetaOf b = 180 + angleOf b) ∧
    (∀ s : Option ℚ, thetaOf { b with sec := s } = thetaOf b) := by
  refine ⟨rfl, ?_, ?_, ?_, ?_, ?_, ?_⟩
  · intro h1 h2; simp [thetaOf, h1, h2]
  · intro h1 h2; simp [thetaOf, h1, h2]
  · intro h1 h2; simp [thetaOf, h1, h2]
  · intro h1 h2; simp [thetaOf, h1, h2]
  · intro h; simp [thetaOf, h]
  · intro s; simp [thetaOf, angleOf]

/-- Witness for C1 at the bearing N 45°30′ E. -/
theorem converter_quadrant_witness :
    (⟨"N", 45, 30, none, some "E", 100⟩ : Bearing).ns = "N" ∧
    (⟨"N", 45, 30, none, some "E", 100⟩ : Bearing).ew = some "E" ∧
    thetaOf ⟨"N", 45, 30, none, some "E", 100⟩ = angleOf ⟨"N", 45, 30, none, some "E", 100⟩ :=
  ⟨rfl, rfl, (converter_quadrant_cases _).2.1 rfl rfl⟩

/-- C2: the traversal engine returns exactly one vertex per boundary call;
the first vertex is the solver output from the externally supplied
starting coordinate, and the vertex at `i + 1` is the solver output
started from the vertex at `i` (vertices are stored as `(lon, lat)`, the
solver takes and returns `(lat, lon)`). -/
theorem traversal_chain (np : ℚ → ℚ → ℚ → ℚ → ℚ × ℚ) (p : Payload) :
    (boundaries np p).length = p.boundaries.length ∧
    (∀ b rest, p.boundaries = b :: rest →
      (boundaries np p).head? =
        some ((np p.tie_lat p.tie_lon (thetaOf b) b.distance).2,
          (np p.tie_lat p.tie_lon (thetaOf b) b.distance).1)) ∧
    (∀ (i : ℕ) (b : Bearing) (v : ℚ × ℚ),
      p.boundaries[i + 1]? = some b → (boundaries np p)[i]? = some v →
      (boundaries np p)[i + 1]? =
        some ((np v.2 v.1 (thetaOf b) b.distance).2, (np v.2 v.1 (thetaOf b) b.distance).1)) := by
  refine ⟨boundariesGo_length np p.boundaries p.tie_lat p.tie_lon, ?_, ?_⟩
  · intro b rest h
    unfold boundaries
    rw [h]
    rfl
  · intro i b v h1 h2
    exact boundariesGo_succ np p.boundaries p.tie_lat p.tie_lon i b v h1 h2

/-- Witness for C2 with an explicit solver and a two-call payload. -/
theorem traversal_chain_witness :
    (boundaries (fun lat lon th d => (lat + th, lon + d))
        ⟨0, 0, [⟨"N", 10, 0, none, some "E", 5⟩, ⟨"S", 20, 0, none, some "W", 7⟩]⟩).head? =
      some (((fun (lat lon th d : ℚ) => (lat + th, lon + d)) 0 0
          (thetaOf ⟨"N", 10, 0, none, some "E", 5⟩) 5).2,
        ((fun (lat lon th d : ℚ) => (lat + th, lon + d)) 0 0
          (thetaOf ⟨"N", 10, 0, none, some "E", 5⟩) 5).1) :=
  (traversal_chain _ _).2.1 _ _ rfl

/-- C3 counterexample: the tokenizer-producible bearing N 0°0′ W converts
to azimuth exactly 360, which is outside `[0, 360)`. -/
theorem azimuth_range_counterexample :
    parse_segment "N 0-0 W. 1m" = .ok (some ⟨'N', 0, 0, none, some 'W'⟩, some 1) ∧
    thetaOf ⟨"N", 0, 0, none, some "W", 1⟩ = 360 ∧
    ¬ thetaOf ⟨"N", 0, 0, none, some "W", 1⟩ < 360 :=
  ⟨by with_unfolding_all decide, by with_unfolding_all decide, by with_unfolding_all decide⟩

/-- C3 amended: the azimuth lies in `[0, 360)` for every bearing whose
angle `degrees + minutes/60` lies strictly between 0 and 180. -/
theorem azimuth_range_amended (b : Bearing) (h1 : 0 < angleOf b) (h2 : angleOf b < 180) :
    0 ≤ thetaOf b ∧ thetaOf b < 360 := by
  unfold thetaOf
  split_ifs <;> constructor <;> linarith

/-- Witness for the amended C3 at N 45°30′ E. -/
theorem azimuth_range_witness :
    0 < angleOf ⟨"N", 45, 30, none, some "E", 1⟩ ∧
    angleOf ⟨"N", 45, 30, none, some "E", 1⟩ < 180 ∧
    (0 ≤ thetaOf ⟨"N", 45, 30, none, some "E", 1⟩ ∧
      thetaOf ⟨"N", 45, 30, none, some "E", 1⟩ < 360) :=
  ⟨by with_unfolding_all decide, by with_unfolding_all decide,
    azimuth_range_amended _ (by with_unfolding_all decide) (by with_unfolding_all decide)⟩

/-- C4: on an input whose tie fragment has no bearing and which has no
corner segments, parse_land_title returns successfully with an *empty*
boundary-call list — there is no non-emptiness check, contradicting the
spec's invariant that such a parse must fail. -/
theorem parse_empty_boundaries_code_bug :
    parse_land_title "G1" "G2" "Beginning at a point marked X from TP-1" =
      .ok (some "G1".data, some "G2".data,
        "Beginning at a point marked X from TP-1".data, "TP-1".data, []) := by
  with_unfolding_all decide

/-- C5 counterexample: on a fragment whose bearing matches and whose
distance token `...` matches the distance pattern but is not a valid
float, parse_segment raises the float-conversion error — a third case
beyond the two the claim allows. -/
theorem segment_error_counterexample :
    parse_segment "N 45-30 E ...m" = .error .floatConv := by
  with_unfolding_all decide

/-- C5 amended: no bearing match returns `(none, none)` without error; a
bearing match with no distance token raises `DistanceNotFound`; a bearing
match whose distance token is not a valid float raises the
float-conversion error; and nothing else is ever raised. -/
theorem segment_error_amended (seg : String) :
    (searchBearing (cleanSegL seg.data) = none → parse_segment seg = .ok (none, none)) ∧
    (∀ b post, searchBearing (cleanSegL seg.data) = some (b, post) → searchDist post = none →
      parse_segment seg = .error .distanceNotFound) ∧
    (∀ b post run rest, searchBearing (cleanSegL seg.data) = some (b, post) →
      searchDist post = some (run, rest) → pyFloatOfRun run = none →
      parse_segment seg = .error .floatConv) ∧
    (∀ e, parse_segment seg = .error e → e = .distanceNotFound ∨ e = .floatConv) := by
  refine ⟨?_, ?_, ?_, ?_⟩
  · intro h
    simp only [parse_segment, parseSegmentL, h]
  · intro b post h1 h2
    simp only [parse_segment, parseSegmentL, h1, h2]
  · intro b post run rest h1 h2 h3
    simp only [parse_segment, parseSegmentL, h1, h2, h3]
  · exact fun e h => parseSegmentL_error_cases seg.data e h

/-- Witness for the amended C5 on a fragment without a bearing. -/
theorem segment_error_witness :
    searchBearing (cleanSegL "hello".data) = none ∧ parse_segment "hello" = .ok (none, none) :=
  ⟨by with_unfolding_all decide, (segment_error_amended "hello").1 (by with_unfolding_all decide)⟩

/-- C6 counterexample: a corner segment with a bearing but no distance
token makes the whole parse abort with `DistanceNotFound` instead of being
dropped. -/
theorem corner_abort_counterexample :
    parse_land_title "G1" "G2"
        "Beginning at a point N 45-30 E 100.0m from TP-1; thence S 10-0 W" =
      .error .distanceNotFound := by
  with_unfolding_all decide

/-- C6 amended: a corner segment in which no bearing matches is silently
dropped wherever it stands in the corner list — the parse continues
exactly as if that segment were absent, whatever the surrounding
(tokenizable or not) corners do; but a corner segment whose tokenization
*raises* (bearing without distance, or invalid distance float) aborts the
whole parse with that error. -/
theorem corner_drop_amended :
    (∀ (pre : List (List Char)) (s : List Char) (post : List (List Char)),
      searchBearing (cleanSegL s) = none →
      cornerLoop (pre ++ s :: post) = cornerLoop (pre ++ post)) ∧
    (∀ s rest e, parseSegmentL s = .error e → cornerLoop (s :: rest) = .error e) := by
  constructor
  · intro pre s post h
    induction pre with
    | nil => simpa using cornerLoop_drop_cons s post h
    | cons p pre' ih =>
      simp only [List.cons_append]
      unfold cornerLoop
      rw [ih]
  · intro s rest e h
    unfold cornerLoop
    rw [h]

/-- Witness for the amended C6: a bearing-free segment between two
tokenizable corners is dropped and both neighbours survive. -/
theorem corner_drop_witness :
    searchBearing (cleanSegL "@@@".data) = none ∧
    cornerLoop [" S 10-0 W 5.5m".data, "@@@".data, " N 1-0 E 2m".data] =
      cornerLoop [" S 10-0 W 5.5m".data, " N 1-0 E 2m".data] ∧
    cornerLoop [" S 10-0 W 5.5m".data, " N 1-0 E 2m".data] =
      .ok [(⟨'S', 10, 0, none, some 'W'⟩, (5.5 : ℚ)),
        (⟨'N', 1, 0, none, some 'E'⟩, 2)] :=
  ⟨by with_unfolding_all decide,
    corner_drop_amended.1 [" S 10-0 W 5.5m".data] "@@@".data [" N 1-0 E 2m".data]
      (by with_unfolding_all decide),
    by with_unfolding_all decide⟩

/-- C7 counterexample: the spec's example fragment `"N 45 30 E 120.50m"`
has no degree marker, which the bearing grammar requires, so the
tokenizer reports *no bearing at all* rather than the claimed groups. -/
theorem tokenize_example_counterexample :
    parse_segment "N 45 30 E 120.50m" = .ok (none, none) := by
  with_unfolding_all decide

/-- C7 amended: with a degree marker present, tokenizing
`"N 45-30 E 120.50m"` yields `{ns N, degrees 45, minutes 30, seconds null,
ew E}` and the distance 120.50. -/
theorem tokenize_example_amended :
    parse_segment "N 45-30 E 120.50m" =
      .ok (some ⟨'N', 45, 30, none, some 'E'⟩, some (120.50 : ℚ)) := by
  with_unfolding_all decide

/-- C8: parse_land_title raises `MissingTiePoint` exactly when the front
stage succeeds and splitting the first part on `\s+from\s+` does not
produce exactly two pieces. -/
theorem missing_tie_point_iff (genT genO text : List Char) :
    parseLandTitleL genT genO text = .error .missingTiePoint ↔
      ∃ td fs cs, tdStage text = .ok (td, fs, cs) ∧ (splitFrom fs).length ≠ 2 := by
  constructor
  · intro h
    unfold parseLandTitleL at h
    split at h
    · rename_i e1 h1
      injection h with h
      rcases tdStage_error_cases _ _ h1 with h2 | h2 | h2 | h2 <;> rw [h2] at h <;>
        exact absurd h (by decide)
    · rename_i td fs cs h1
      refine ⟨td, fs, cs, h1, ?_⟩
      rcases h2 : splitFrom fs with _ | ⟨a, _ | ⟨b2, _ | ⟨c, r⟩⟩⟩ <;> rw [h2] at h
      · simp
      · simp
      · exfalso
        split at h
        · split at h
          · rename_i e1 h4
            injection h with h
            rcases parseSegmentL_error_cases _ _ h4 with h5 | h5 <;> rw [h5] at h <;>
              exact absurd h (by decide)
          · split at h
            · rename_i e2 h4
              injection h with h
              rcases cornerLoop_error_cases _ _ h4 with h5 | h5 <;> rw [h5] at h <;>
                exact absurd h (by decide)
            · simp at h
        · rename_i hno
          exact hno a b2 rfl
      · simp only [List.length_cons]
        omega
  · rintro ⟨td, fs, cs, h1, h2⟩
    unfold parseLandTitleL
    split
    · rename_i e1 heq
      rw [h1] at heq
      exact absurd heq (by simp)
    · rename_i td' fs' cs' heq
      rw [h1] at heq
      injection heq with heq
      simp only [Prod.mk.injEq] at heq
      obtain ⟨e1, e2, e3⟩ := heq
      subst e1
      subst e2
      subst e3
      rcases h3 : splitFrom fs with _ | ⟨a, _ | ⟨b2, _ | ⟨c, r⟩⟩⟩
      · rfl
      · rfl
      · exact absurd (by rw [h3]; simp) h2
      · rfl

/-- Witness for C8 on a document whose first part contains no `from`. -/
theorem missing_tie_point_witness :
    parse_land_title "G1" "G2" "beginning at X T" = .error .missingTiePoint :=
  (missing_tie_point_iff "G1".data "G2".data "beginning at X T".data).mpr
    ⟨"beginning at X T".data, "beginning at X T".data, [],
      by with_unfolding_all decide, by with_unfolding_all decide⟩

/-- C9: on input where no title-number and no owner pattern matches, the
metadata extractor does *not* return null: it substitutes the synthetic
generator outputs (modelled as the parameters), contradicting the claim
and the function's own docstring. -/
theorem meta_never_null_code_bug (genT genO : String) :
    extract_title_meta genT genO "hello" = (some genT.data, some genO.data) := by
  have h1 : findFirstTitle "hello".data = none := by with_unfolding_all decide
  have h2 : findFirstOwner "hello".data = none := by with_unfolding_all decide
  simp [extract_title_meta, extractTitleMetaL, h1, h2, pyOrStr]

/-- C10 counterexample: the tie fragment tokenizes to a bearing *and* a
distance (0.0), yet the pair is not placed first — Python float
truthiness drops it and the boundary list starts with the corner pair. -/
theorem tie_zero_distance_counterexample :
    parse_segment "Beginning at a point N 45-30 E 0m" =
      .ok (some ⟨'N', 45, 30, none, some 'E'⟩, some 0) ∧
    parse_land_title "G1" "G2"
        "Beginning at a point N 45-30 E 0m from TP-1; thence S 10-0 W 5.5m" =
      .ok (some "G1".data, some "G2".data,
        "Beginning at a point N 45-30 E 0m from TP-1; thence S 10-0 W 5.5m".data,
        "TP-1".data, [(⟨'S', 10, 0, none, some 'W'⟩, (5.5 : ℚ))]) :=
  ⟨by with_unfolding_all decide, by with_unfolding_all decide⟩

/-- C10 amended: the tie fragment is tokenized like a corner segment; when
it yields a bearing and a *nonzero* distance the pair is placed first,
before all corner-derived calls; when it yields a zero distance or no
bearing it is omitted without error. -/
theorem tie_first_element_amended (genT genO text td fs segTd tp : List Char)
    (cs : List (List Char)) (l : List (TokBearing × ℚ))
    (h1 : tdStage text = .ok (td, fs, cs))
    (h2 : splitFrom fs = [segTd, tp])
    (h3 : cornerLoop cs = .ok l) :
    (∀ b d, parseSegmentL segTd = .ok (some b, some d) → d ≠ 0 →
      parseLandTitleL genT genO text =
        .ok ((extractTitleMetaL genT genO text).1, (extractTitleMetaL genT genO text).2,
          td, cleanCapture tp, (b, d) :: l)) ∧
    (∀ b d, parseSegmentL segTd = .ok (some b, some d) → d = 0 →
      parseLandTitleL genT genO text =
        .ok ((extractTitleMetaL genT genO text).1, (extractTitleMetaL genT genO text).2,
          td, cleanCapture tp, l)) ∧
    (parseSegmentL segTd = .ok (none, none) →
      parseLandTitleL genT genO text =
        .ok ((extractTitleMetaL genT genO text).1, (extractTitleMetaL genT genO text).2,
          td, cleanCapture tp, l)) := by
  refine ⟨?_, ?_, ?_⟩
  · intro b d h4 h5
    simp only [parseLandTitleL, h1, h2, h3, h4]
    simp [h5]
  · intro b d h4 h5
    simp only [parseLandTitleL, h1, h2, h3, h4]
    simp [h5]
  · intro h4
    simp only [parseLandTitleL, h1, h2, h3, h4]
    simp

/-- Witness for the amended C10 at the zero-distance tie document. -/
theorem tie_first_element_witness :
    parseLandTitleL "G1".data "G2".data
        "Beginning at a point N 45-30 E 0m from TP-1; thence S 10-0 W 5.5m".data =
      .ok ((extractTitleMetaL "G1".data "G2".data
          "Beginning at a point N 45-30 E 0m from TP-1; thence S 10-0 W 5.5m".data).1,
        (extractTitleMetaL "G1".data "G2".data
          "Beginning at a point N 45-30 E 0m from TP-1; thence S 10-0 W 5.5m".data).2,
        "Beginning at a point N 45-30 E 0m from TP-1; thence S 10-0 W 5.5m".data,
        cleanCapture "TP-1".data, [(⟨'S', 10, 0, none, some 'W'⟩, (5.5 : ℚ))]) :=
  (tie_first_element_amended "G1".data "G2".data
      "Beginning at a point N 45-30 E 0m from TP-1; thence S 10-0 W 5.5m".data
      "Beginning at a point N 45-30 E 0m from TP-1; thence S 10-0 W 5.5m".data
      "Beginning at a point N 45-30 E 0m from TP-1".data
      "Beginning at a point N 45-30 E 0m".data "TP-1".data
      [" S 10-0 W 5.5m".data]
      [(⟨'S', 10, 0, none, some 'W'⟩, (5.5 : ℚ))]
      (by with_unfolding_all decide) (by with_unfolding_all decide)
      (by with_unfolding_all decide)).2.1
    ⟨'N', 45, 30, none, some 'E'⟩ 0 (by with_unfolding_all decide) rfl

end LandTracker
